import Mathlib

/-!
Shallow embedding of the cernops/keystone templated-catalog and
endpoint-filter code (src/keystone/catalog/backends/templated.py,
src/keystone/contrib/endpoint_filter/core.py,
src/keystone/contrib/endpoint_filter/backends/catalog_templated.py),
together with theorems settling the frozen claims about it.

Python dicts are embedded as insertion-ordered association lists
(`Py.update` replaces in place or appends, like dict assignment;
`Py.lookup` is dict subscript returning an `Option`).  Fallible Python
code is embedded in `Except PyErr`.  String helpers are re-implemented
on `List Char` by structural recursion so that every definition reduces
in the kernel.
-/

/-- The Python exception kinds that the embedded code can raise. -/
inductive PyErr where
  | keyError
  | valueError
  | indexError
  | typeError
  | malformedEndpoint
  | serviceNotFound
  | endpointNotFound
  | endpointGroupNotFound
  | projectNotFound
deriving DecidableEq

/-- Python values stored in the embedded dicts: strings, booleans and None. -/
inductive PyVal where
  | str (s : String)
  | bool (b : Bool)
  | none
deriving DecidableEq

/-- Python truthiness of an embedded value (`if value:`). -/
def PyVal.truthy : PyVal → Bool
  | .str s => s ≠ ""
  | .bool b => b
  | .none => false

namespace Py

/-- Dict subscript `m[k]` as an `Option` (first binding wins). -/
def lookup {κ α : Type} [DecidableEq κ] : List (κ × α) → κ → Option α
  | [], _ => Option.none
  | p :: rest, key => if p.1 = key then some p.2 else lookup rest key

/-- Dict assignment `m[k] = v`: replaces the value in place when the key is
present, appends a new binding otherwise (Python insertion order). -/
def update {κ α : Type} [DecidableEq κ] : List (κ × α) → κ → α → List (κ × α)
  | [], key, val => [(key, val)]
  | p :: rest, key, val =>
    if p.1 = key then (p.1, val) :: rest else p :: update rest key val

/-- Removal of the first binding for a key (used by `delKey`). -/
def erase {κ α : Type} [DecidableEq κ] : List (κ × α) → κ → List (κ × α)
  | [], _ => []
  | p :: rest, key => if p.1 = key then rest else p :: erase rest key

/-- Python `del m[k]`: `KeyError` when the key is absent. -/
def delKey {κ α : Type} [DecidableEq κ] (m : List (κ × α)) (key : κ) :
    Except PyErr (List (κ × α)) :=
  if (lookup m key).isSome then .ok (erase m key) else .error .keyError

/-- `m.keys()`. -/
def keys {κ α : Type} (m : List (κ × α)) : List κ := m.map Prod.fst

/-- `m.values()`. -/
def values {κ α : Type} (m : List (κ × α)) : List α := m.map Prod.snd

end Py

/-- An embedded Python dict with string keys and Python values. -/
abbrev PyDict := List (String × PyVal)

/-- The parsed template: region name to service name to attribute key to
raw value string, all insertion-ordered. -/
abbrev Template := List (String × List (String × List (String × String)))

/-- Dict subscript that raises `KeyError` when the key is absent. -/
def getOrKeyError {α : Type} : Option α → Except PyErr α
  | some v => .ok v
  | Option.none => .error .keyError

/-- Python `str.strip()` (both ends, whitespace). -/
def pyStrip (s : String) : String :=
  String.mk (((s.data.dropWhile Char.isWhitespace).reverse.dropWhile Char.isWhitespace).reverse)

/-- Python `str.rstrip()` (right end, whitespace). -/
def pyRStrip (s : String) : String :=
  String.mk ((s.data.reverse.dropWhile Char.isWhitespace).reverse)

/-- Python `str.replace('_', '-')` for the single-character pattern used by
the template parser. -/
def replaceUnderscore (s : String) : String :=
  String.mk (s.data.map (fun c => if c = '_' then '-' else c))

/-- Fuel-driven worker for `pySplit`; the fuel is at least the length of the
remaining text, and every step consumes at least one character. -/
def pySplitGo (sep : List Char) : Nat → List Char → List Char → List (List Char)
  | 0, acc, rest => [acc.reverse ++ rest]
  | _ + 1, acc, [] => [acc.reverse]
  | n + 1, acc, c :: rest =>
    if sep.isPrefixOf (c :: rest) then
      acc.reverse :: pySplitGo sep n [] ((c :: rest).drop sep.length)
    else
      pySplitGo sep n (c :: acc) rest

/-- Python `str.split(sep)` for a non-empty separator: non-overlapping,
left-to-right. -/
def pySplit (s : String) (sep : String) : List String :=
  if sep = "" then [s]
  else (pySplitGo sep.data (s.data.length + 1) [] s.data).map String.mk

/-- Python substring test `needle in hay` (for a non-empty needle). -/
def pyContains (hay needle : String) : Bool :=
  (pySplit hay needle).length ≠ 1

/-- Python `str.startswith(pre)`. -/
def pyStartsWith (s pre : String) : Bool :=
  pre.data.isPrefixOf s.data

/-- Prepends one literal character to a successful, non-dropped
interpolation result. -/
def fmtPrepend (c : Char) :
    Except PyErr (Option (List Char)) → Except PyErr (Option (List Char))
  | .ok (some l) => .ok (some (c :: l))
  | .ok Option.none => .ok Option.none
  | .error e => .error e

/-- Prepends a substituted value to a successful, non-dropped interpolation
result. -/
def fmtPrependStr (s : List Char) :
    Except PyErr (Option (List Char)) → Except PyErr (Option (List Char))
  | .ok (some l) => .ok (some (s ++ l))
  | .ok Option.none => .ok Option.none
  | .error e => .error e

/-- Modelled from the spec: placeholder scanner of
`keystone.catalog.core.format_url`, which is not under src/.  The first
argument is `Option.none` in plain-text mode and `some acc` while reading a
placeholder name (accumulated reversed).  `$(name)s` and `%(name)s` are the
canonical placeholder forms; `%%` is a literal percent; any other
`%`-conversion is a format error.  An unresolved placeholder is tolerated
(whole result dropped, `Option.none`) when its name is listed, and raises
`MalformedEndpoint` otherwise. -/
def formatUrlGo (subs : List (String × String)) (silent : List String) :
    Option (List Char) → List Char → Except PyErr (Option (List Char))
  | Option.none, [] => .ok (some [])
  | Option.none, '$' :: '(' :: rest => formatUrlGo subs silent (some []) rest
  | Option.none, '%' :: '(' :: rest => formatUrlGo subs silent (some []) rest
  | Option.none, '%' :: '%' :: rest => fmtPrepend '%' (formatUrlGo subs silent Option.none rest)
  | Option.none, ['%'] => .error .valueError
  | Option.none, '%' :: _ :: _ => .error .valueError
  | Option.none, c :: rest => fmtPrepend c (formatUrlGo subs silent Option.none rest)
  | some acc, ')' :: 's' :: rest =>
    (match Py.lookup subs (String.mk acc.reverse) with
     | some v => fmtPrependStr v.data (formatUrlGo subs silent Option.none rest)
     | Option.none =>
       if String.mk acc.reverse ∈ silent then .ok Option.none
       else .error .malformedEndpoint)
  | some _, ')' :: _ => .error .valueError
  | some _, [] => .error .valueError
  | some acc, c :: rest => formatUrlGo subs silent (some (c :: acc)) rest

/-- Modelled from the spec: `keystone.catalog.core.format_url` is not under
src/.  Interpolates named placeholders of `url` from `subs`; returns
`Option.none` (Python `None`, the drop-this-attribute signal) when a
placeholder listed in `silent` is unresolved, and `MalformedEndpoint` when
an unlisted placeholder is unresolved. -/
def format_url (url : String) (subs : List (String × String)) (silent : List String) :
    Except PyErr (Option String) :=
  match formatUrlGo subs silent Option.none url.data with
  | .ok (some l) => .ok (some (String.mk l))
  | .ok Option.none => .ok Option.none
  | .error e => .error e

/-- One iteration of the `parse_templates` loop: lines without the
separator are skipped; the stripped line is split on every occurrence of
the separator and destructured into exactly two parts (`ValueError`
otherwise); keys not starting with `catalog.` are skipped; accessing the
fourth dot-segment of a shorter key is an `IndexError`. -/
def parseLine (o : Template) (line : String) : Except PyErr Template :=
  if pyContains line " = " = false then .ok o
  else
    match pySplit (pyStrip line) " = " with
    | [k, v] =>
      if pyStartsWith k "catalog." = false then .ok o
      else
        let parts := pySplit k "."
        if parts.length < 4 then .error .indexError
        else
          let region := parts.getD 1 ""
          let service := pyRStrip (replaceUnderscore (parts.getD 2 ""))
          let key := pyRStrip (parts.getD 3 "")
          let region_ref := (Py.lookup o region).getD []
          let service_ref := (Py.lookup region_ref service).getD []
          .ok (Py.update o region (Py.update region_ref service (Py.update service_ref key v)))
    | _ => .error .valueError

/-- `parse_templates` from templated.py: folds `parseLine` over the input
lines, propagating any exception. -/
def parse_templates (template_lines : List String) : Except PyErr Template :=
  template_lines.foldl (fun acc line => acc.bind (fun o => parseLine o line)) (.ok [])

/-- Python truthiness of the optional `tenant_id` argument. -/
def tenantTruthy : Option String → Bool
  | some t => t ≠ ""
  | Option.none => false

/-- The substitution context of `Catalog.get_catalog`: configuration items
plus `user_id` and, when the tenant is truthy, `tenant_id`. -/
def catalogSubs (conf : List (String × String)) (user_id : String)
    (tenant_id : Option String) : List (String × String) :=
  let s := Py.update conf "user_id" user_id
  if tenantTruthy tenant_id then Py.update s "tenant_id" (tenant_id.getD "") else s

/-- The tolerated-missing keys of `Catalog.get_catalog`: `tenant_id` is
tolerated exactly when no truthy tenant is in scope. -/
def catalogSilent (tenant_id : Option String) : List String :=
  if tenantTruthy tenant_id then [] else ["tenant_id"]

/-- The inner attribute loop of `Catalog.get_catalog`: formats each value,
keeps truthy results, and propagates the first exception (which aborts the
whole service entry). -/
def buildServiceData (subs : List (String × String)) (silent : List String)
    (acc : List (String × String)) :
    List (String × String) → Except PyErr (List (String × String))
  | [] => .ok acc
  | kv :: rest =>
    match format_url kv.2 subs silent with
    | .error e => .error e
    | .ok Option.none => buildServiceData subs silent acc rest
    | .ok (some fv) =>
      buildServiceData subs silent (if fv ≠ "" then Py.update acc kv.1 fv else acc) rest

/-- The service loop of `Catalog.get_catalog` for one region: a
`MalformedEndpoint` from a service's attributes drops that whole service
entry (`continue`), any other exception propagates. -/
def buildRegion (subs : List (String × String)) (silent : List String)
    (acc : List (String × List (String × String))) :
    List (String × List (String × String)) →
    Except PyErr (List (String × List (String × String)))
  | [] => .ok acc
  | sv :: rest =>
    match buildServiceData subs silent [] sv.2 with
    | .ok d => buildRegion subs silent (Py.update acc sv.1 d) rest
    | .error PyErr.malformedEndpoint => buildRegion subs silent acc rest
    | .error e => .error e

/-- The region loop of `Catalog.get_catalog`. -/
def getCatalogGo (subs : List (String × String)) (silent : List String)
    (acc : List (String × List (String × List (String × String)))) :
    Template → Except PyErr (List (String × List (String × List (String × String))))
  | [] => .ok acc
  | r :: rest =>
    match buildRegion subs silent [] r.2 with
    | .ok rm => getCatalogGo subs silent (Py.update acc r.1 rm) rest
    | .error e => .error e

/-- `Catalog.get_catalog` from templated.py: the v2 catalog build. -/
def get_catalog (conf : List (String × String)) (user_id : String)
    (tenant_id : Option String) (templates : Template) :
    Except PyErr (List (String × List (String × List (String × String)))) :=
  getCatalogGo (catalogSubs conf user_id tenant_id) (catalogSilent tenant_id) [] templates

/-- `Catalog.service_properties`. -/
def service_properties : List String := ["id", "enabled", "type", "name", "description"]

/-- `Catalog.endpoint_properties`. -/
def endpoint_properties : List String :=
  ["id", "enabled", "interface", "region", "service_id", "url"]

/-- `Catalog.extract_interface_from_string`: the part of the key before the
literal `URL`, or nothing when the key does not contain `URL`. -/
def extract_interface_from_string (line : String) : Option String :=
  if pyContains line "URL" then some ((pySplit line "URL").headD "") else Option.none

/-- The initial endpoint dict built by `Catalog.list_endpoints` for one
service of one region. -/
def initialEndpointDict (u : String → String) (region service : String) : PyDict :=
  [("id", .str ""), ("region", .str region), ("region_id", .str region),
   ("enabled", .bool true), ("legacy_endpoint_id", .str ""),
   ("service_id", .str (u service))]

/-- Worker for the first loop of `Catalog.list_endpoints` over a service's
template attributes: whitelisted keys overwrite endpoint fields, other keys
containing `URL` are collected as interface URLs, the rest are ignored. -/
def collectFieldsGo (acc : PyDict × List (String × String)) :
    List (String × String) → PyDict × List (String × String)
  | [] => acc
  | kv :: rest =>
    collectFieldsGo
      (if kv.1 ∈ endpoint_properties then (Py.update acc.1 kv.1 (.str kv.2), acc.2)
       else
         match extract_interface_from_string kv.1 with
         | some _ => (acc.1, Py.update acc.2 kv.1 kv.2)
         | Option.none => acc)
      rest

/-- The first loop of `Catalog.list_endpoints`, started from the initial
endpoint dict and an empty interface collection. -/
def collectEndpointFields (u : String → String) (region service : String)
    (sref : List (String × String)) : PyDict × List (String × String) :=
  collectFieldsGo (initialEndpointDict u region service, []) sref

/-- The second loop of `Catalog.list_endpoints`: one endpoint per collected
interface, mutating the shared dict and appending a copy each time.
Reading `service_ref['name']` raises `KeyError` when the service template
has no `name` attribute. -/
def interfaceLoop (u : String → String) (region service : String)
    (sref : List (String × String)) :
    PyDict → List (String × String) → Except PyErr (List PyDict)
  | _, [] => .ok []
  | d, kv :: rest =>
    match Py.lookup sref "name" with
    | Option.none => .error .keyError
    | some name =>
      match extract_interface_from_string kv.1 with
      | Option.none => .error .typeError
      | some intf =>
        let eid := u (region ++ service ++ name ++ intf)
        let d' := Py.update (Py.update (Py.update (Py.update d "id" (.str eid))
          "legacy_endpoint_id" (.str eid)) "interface" (.str intf)) "url" (.str kv.2)
        match interfaceLoop u region service sref d' rest with
        | .ok tail => .ok (d' :: tail)
        | .error e => .error e

/-- The endpoints `Catalog.list_endpoints` emits for one service of one
region. -/
def endpointsOfService (u : String → String) (region service : String)
    (sref : List (String × String)) : Except PyErr (List PyDict) :=
  let c := collectEndpointFields u region service sref
  interfaceLoop u region service sref c.1 c.2

/-- The endpoints `Catalog.list_endpoints` emits for one region. -/
def regionEndpoints (u : String → String) (region : String) :
    List (String × List (String × String)) → Except PyErr (List PyDict)
  | [] => .ok []
  | sv :: rest =>
    match endpointsOfService u region sv.1 sv.2 with
    | .error e => .error e
    | .ok eps =>
      match regionEndpoints u region rest with
      | .error e => .error e
      | .ok tail => .ok (eps ++ tail)

/-- `Catalog.list_endpoints` from templated.py, parameterized by the
`uuid.uuid5(uuid.NAMESPACE_DNS, ·).hex` library hash `u`. -/
def list_endpoints (u : String → String) : Template → Except PyErr (List PyDict)
  | [] => .ok []
  | r :: rest =>
    match regionEndpoints u r.1 r.2 with
    | .error e => .error e
    | .ok eps =>
      match list_endpoints u rest with
      | .error e => .error e
      | .ok tail => .ok (eps ++ tail)

/-- Worker applying the whitelisted template attributes of one service to
the initial service dict of `Catalog.list_services`. -/
def serviceRecordGo (d : PyDict) : List (String × String) → PyDict
  | [] => d
  | kv :: rest =>
    serviceRecordGo (if kv.1 ∈ service_properties then Py.update d kv.1 (.str kv.2) else d) rest

/-- The service dict `Catalog.list_services` builds for one service of one
region: the derived-id literal, then whitelisted template attributes
overwrite its fields. -/
def serviceRecord (u : String → String) (service : String)
    (sref : List (String × String)) : PyDict :=
  serviceRecordGo
    [("id", .str (u service)), ("type", .str service), ("enabled", .bool true),
     ("description", .str "")]
    sref

/-- The inner service loop of `Catalog.list_services` for one region. -/
def servicesRegionGo (u : String → String) (sd : List (String × PyDict)) :
    List (String × List (String × String)) → List (String × PyDict)
  | [] => sd
  | sv :: rest => servicesRegionGo u (Py.update sd sv.1 (serviceRecord u sv.1 sv.2)) rest

/-- The region loop of `Catalog.list_services` accumulating the
`service_dict`. -/
def listServicesDictGo (u : String → String) (sd : List (String × PyDict)) :
    Template → List (String × PyDict)
  | [] => sd
  | r :: rest => listServicesDictGo u (servicesRegionGo u sd r.2) rest

/-- The accumulated `service_dict` of `Catalog.list_services` keyed by the
template service name (last write wins across regions). -/
def listServicesDict (u : String → String) (t : Template) : List (String × PyDict) :=
  listServicesDictGo u [] t

/-- `Catalog.list_services` from templated.py: the values of the service
dict. -/
def list_services (u : String → String) (t : Template) : List PyDict :=
  Py.values (listServicesDict u t)

/-- The `(service, service_ref)` pairs of the template in traversal order
(regions outer, services inner). -/
def flatPairs : Template → List (String × List (String × String))
  | [] => []
  | r :: rest => r.2 ++ flatPairs rest

/-- The service templates of one service name in traversal order. -/
def occurrences (t : Template) (s : String) : List (List (String × String)) :=
  ((flatPairs t).filter (fun sv => sv.1 = s)).map Prod.snd

/-- The linear scan of `Catalog.get_service`: first record whose `id`
equals the wanted id, `ServiceNotFound` otherwise. -/
def findService : List PyDict → PyVal → Except PyErr PyDict
  | [], _ => .error .serviceNotFound
  | svc :: rest, sid =>
    match Py.lookup svc "id" with
    | Option.none => .error .keyError
    | some v => if v = sid then .ok svc else findService rest sid

/-- `Catalog.get_service` from templated.py. -/
def get_service_templated (u : String → String) (t : Template) (service_id : PyVal) :
    Except PyErr PyDict :=
  findService (list_services u t) service_id

/-- An endpoint-group filter value: a scalar or a list of accepted
values. -/
inductive FilterVal where
  | scalar (v : PyVal)
  | list (vs : List PyVal)
deriving DecidableEq

/-- The accepted-value set of a filter: `if not isinstance(value, list):
value = [value]`. -/
def FilterVal.accepted : FilterVal → List PyVal
  | .scalar v => [v]
  | .list vs => vs

/-- Boolean form of one filter key succeeding on an endpoint: the key is
present and its value is in the accepted set. -/
def filterKeyOk (endpoint : PyDict) (f : String × FilterVal) : Bool :=
  match Py.lookup endpoint f.1 with
  | some v => v ∈ f.2.accepted
  | Option.none => false

/-- An endpoint group held by the external store. -/
structure EndpointGroup where
  id : String
  filters : List (String × FilterVal)

/-- The external collaborators of `endpoint_filter.core.Manager`: the
association driver, the resource backend and the catalog backend, embedded
as an explicit environment. -/
structure EFEnv where
  directRefs : String → List String
  getEndpoint : String → Option PyDict
  projectExists : String → Bool
  groupRefs : String → List String
  getGroup : String → Option EndpointGroup
  allEndpoints : List PyDict

/-- The per-endpoint filter loop of
`Manager._get_endpoints_filtered_by_endpoint_group`: keys are checked in
order, a value outside the accepted set short-circuits to no-match, and
`endpoint[key]` on a missing key raises `KeyError`. -/
def matchFilters (endpoint : PyDict) : List (String × FilterVal) → Except PyErr Bool
  | [] => .ok true
  | f :: rest =>
    match Py.lookup endpoint f.1 with
    | Option.none => .error .keyError
    | some v => if v ∈ f.2.accepted then matchFilters endpoint rest else .ok false

/-- The candidate loop of
`Manager._get_endpoints_filtered_by_endpoint_group` over all catalog
endpoints. -/
def filterCandidates (filters : List (String × FilterVal)) :
    List PyDict → Except PyErr (List PyDict)
  | [] => .ok []
  | ep :: rest =>
    match matchFilters ep filters with
    | .error e => .error e
    | .ok b =>
      match filterCandidates filters rest with
      | .error e => .error e
      | .ok tail => .ok (if b then ep :: tail else tail)

/-- `Manager._get_endpoints_filtered_by_endpoint_group`: refetches the
group (an absent group raises `EndpointGroupNotFound`) and filters the
whole endpoint catalog with its filters. -/
def getEndpointsFilteredByGroup (env : EFEnv) (gid : String) :
    Except PyErr (List PyDict) :=
  match env.getGroup gid with
  | Option.none => .error .endpointGroupNotFound
  | some g => filterCandidates g.filters env.allEndpoints

/-- `Manager._get_endpoint_groups_for_project`: empty for a falsy project
id, propagates a missing project, and resolves any
`EndpointGroupNotFound` during group retrieval to the empty list. -/
def getEndpointGroupsForProject (env : EFEnv) (pid : String) :
    Except PyErr (List EndpointGroup) :=
  if pid = "" then .ok []
  else if env.projectExists pid = false then .error .projectNotFound
  else
    match (env.groupRefs pid).mapM env.getGroup with
    | some gs => .ok gs
    | Option.none => .ok []

/-- Step one of `Manager.list_endpoints_for_project`: resolve each direct
association against the catalog, keying found endpoints by their
association id and recording a `remove_endpoint_from_project` call for
each stale association. -/
def directPhaseGo (env : EFEnv) (pid : String)
    (acc : List (PyVal × PyDict) × List (String × String)) :
    List String → List (PyVal × PyDict) × List (String × String)
  | [] => acc
  | refId :: rest =>
    directPhaseGo env pid
      (match env.getEndpoint refId with
       | some ep => (Py.update acc.1 (.str refId) ep, acc.2)
       | Option.none => (acc.1, acc.2 ++ [(refId, pid)]))
      rest

/-- Step one of `Manager.list_endpoints_for_project` started from the empty
mapping. -/
def directPhase (env : EFEnv) (pid : String) :
    List (PyVal × PyDict) × List (String × String) :=
  directPhaseGo env pid ([], []) (env.directRefs pid)

/-- The inner union loop of `Manager.list_endpoints_for_project`: a group
endpoint is added only when its id is not already a key of the mapping;
a group endpoint without an `id` raises `KeyError`. -/
def addGroupEndpoints :
    List (PyVal × PyDict) → List PyDict → Except PyErr (List (PyVal × PyDict))
  | m, [] => .ok m
  | m, ep :: rest =>
    match Py.lookup ep "id" with
    | Option.none => .error .keyError
    | some eid =>
      addGroupEndpoints (if (Py.lookup m eid).isSome then m else Py.update m eid ep) rest

/-- The per-group loop of `Manager.list_endpoints_for_project`. -/
def groupsLoop (env : EFEnv) :
    List (PyVal × PyDict) → List EndpointGroup → Except PyErr (List (PyVal × PyDict))
  | m, [] => .ok m
  | m, g :: rest =>
    match getEndpointsFilteredByGroup env g.id with
    | .error e => .error e
    | .ok eps =>
      match addGroupEndpoints m eps with
      | .error e => .error e
      | .ok m' => groupsLoop env m' rest

/-- `Manager.list_endpoints_for_project`: the direct phase followed by the
group phase; the result is the endpoint mapping together with the stale
associations removed along the way. -/
def list_endpoints_for_project (env : EFEnv) (pid : String) :
    Except PyErr (List (PyVal × PyDict) × List (String × String)) :=
  let p := directPhase env pid
  match getEndpointGroupsForProject env pid with
  | .error e => .error e
  | .ok groups =>
    match groupsLoop env p.1 groups with
    | .error e => .error e
    | .ok m => .ok (m, p.2)

/-- One formatted v3 catalog entry: `{type, name, description,
endpoints}`. -/
structure V3Service where
  type : PyVal
  name : PyVal
  description : PyVal
  endpoints : List PyDict
deriving DecidableEq

/-- The environment of `EndpointFilterCatalog.get_v3_catalog`: the
endpoint-filter manager's collaborators, the configuration substitution
items, the filter flag, the backend's own template and hash, and the
parent backend's full catalog. -/
structure V3Env where
  efEnv : EFEnv
  conf : List (String × String)
  returnAllIfNoFilter : Bool
  template : Template
  u : String → String
  /-- Modelled from the spec: `super().get_v3_catalog` (the kvs backend
  behind templated.Catalog) is not under src/; it is the full unfiltered
  v3 catalog for the user and project. -/
  fullV3Catalog : String → String → List V3Service

/-- The per-endpoint body of `EndpointFilterCatalog.get_v3_catalog`: skip
disabled endpoints, always fetch the service record (the `setdefault`
default argument is evaluated eagerly), cache it keyed by `service_id`,
delete the bookkeeping fields, re-interpolate the url with no tolerated
keys, and append the endpoint under its service. -/
def processEndpoint (env : V3Env) (subs : List (String × String))
    (services : List (PyVal × (PyDict × List PyDict))) (ep : PyDict) :
    Except PyErr (List (PyVal × (PyDict × List PyDict))) :=
  match getOrKeyError (Py.lookup ep "enabled") with
  | .error e => .error e
  | .ok enabled =>
    if enabled.truthy = false then .ok services
    else
      match getOrKeyError (Py.lookup ep "service_id") with
      | .error e => .error e
      | .ok sid =>
        match get_service_templated env.u env.template sid with
        | .error e => .error e
        | .ok fetched =>
          let services :=
            match Py.lookup services sid with
            | some _ => services
            | Option.none => Py.update services sid (fetched, [])
          match Py.delKey ep "service_id" with
          | .error e => .error e
          | .ok ep =>
            match Py.delKey ep "enabled" with
            | .error e => .error e
            | .ok ep =>
              match Py.delKey ep "legacy_endpoint_id" with
              | .error e => .error e
              | .ok ep =>
                match Py.delKey ep "region_id" with
                | .error e => .error e
                | .ok ep =>
                  match Py.delKey ep "id" with
                  | .error e => .error e
                  | .ok ep =>
                    match getOrKeyError (Py.lookup ep "url") with
                    | .error e => .error e
                    | .ok urlv =>
                      match urlv with
                      | PyVal.str s =>
                        match format_url s subs [] with
                        | .error e => .error e
                        | .ok fo =>
                          let ep := Py.update ep "url"
                            (match fo with
                             | some r => PyVal.str r
                             | Option.none => PyVal.none)
                          match Py.lookup services sid with
                          | some entry =>
                            .ok (Py.update services sid (entry.1, entry.2 ++ [ep]))
                          | Option.none => .error .keyError
                      | _ => .error .malformedEndpoint

/-- The endpoint loop of `EndpointFilterCatalog.get_v3_catalog`, with the
dead `except EndpointNotFound` handler that skips the endpoint. -/
def endpointLoop (env : V3Env) (subs : List (String × String))
    (services : List (PyVal × (PyDict × List PyDict))) :
    List (PyVal × PyDict) → Except PyErr (List (PyVal × (PyDict × List PyDict)))
  | [] => .ok services
  | kv :: rest =>
    match processEndpoint env subs services kv.2 with
    | .error PyErr.endpointNotFound => endpointLoop env subs services rest
    | .error e => .error e
    | .ok services' => endpointLoop env subs services' rest

/-- The final formatting loop of `EndpointFilterCatalog.get_v3_catalog`:
reading `type`, `name`, `description` or a never-populated `endpoints`
raises `KeyError`. -/
def formatServices :
    List (PyVal × (PyDict × List PyDict)) → Except PyErr (List V3Service)
  | [] => .ok []
  | entry :: rest =>
    match getOrKeyError (Py.lookup entry.2.1 "type") with
    | .error e => .error e
    | .ok tyv =>
      match getOrKeyError (Py.lookup entry.2.1 "name") with
      | .error e => .error e
      | .ok namev =>
        match getOrKeyError (Py.lookup entry.2.1 "description") with
        | .error e => .error e
        | .ok descv =>
          match entry.2.2 with
          | [] => .error .keyError
          | eps =>
            match formatServices rest with
            | .error e => .error e
            | .ok tail =>
              .ok ({ type := tyv, name := namev, description := descv,
                     endpoints := eps } :: tail)

/-- `EndpointFilterCatalog.get_v3_catalog` from catalog_templated.py: when
the project resolves to no endpoints and the
`return_all_endpoints_if_no_filter` option is set, the parent backend's
full catalog is returned; otherwise the resolved endpoints are formatted
per service. -/
def get_v3_catalog (env : V3Env) (user_id project_id : String) :
    Except PyErr (List V3Service) :=
  let subs := Py.update (Py.update env.conf "tenant_id" project_id) "user_id" user_id
  match list_endpoints_for_project env.efEnv project_id with
  | .error e => .error e
  | .ok refs =>
    if refs.1.isEmpty && env.returnAllIfNoFilter then
      .ok (env.fullV3Catalog user_id project_id)
    else
      match endpointLoop env subs [] refs.1 with
      | .error e => .error e
      | .ok services => formatServices services

/-- A concrete resolver environment: one direct association to `e1` and one
endpoint group `g1` whose filter matches the catalog endpoint `e2`. -/
def efEnvC3 : EFEnv where
  directRefs := fun _ => ["e1"]
  getEndpoint := fun i => if i = "e1" then some [("id", PyVal.str "e1")] else Option.none
  projectExists := fun _ => true
  groupRefs := fun _ => ["g1"]
  getGroup := fun i =>
    if i = "g1" then some ⟨"g1", [("interface", FilterVal.scalar (PyVal.str "public"))]⟩
    else Option.none
  allEndpoints := [[("id", PyVal.str "e2"), ("interface", PyVal.str "public")]]

/-- A concrete resolver environment with one stale direct association
(`stale`) and one live one (`good`), and no endpoint groups. -/
def efEnvC4 : EFEnv where
  directRefs := fun _ => ["stale", "good"]
  getEndpoint := fun i => if i = "good" then some [("id", PyVal.str "good")] else Option.none
  projectExists := fun _ => true
  groupRefs := fun _ => []
  getGroup := fun _ => Option.none
  allEndpoints := []

/-- A concrete v3 environment whose project resolves to no endpoints and
whose parent backend serves one full-catalog entry. -/
def v3EnvC10 : V3Env where
  efEnv :=
    { directRefs := fun _ => []
      getEndpoint := fun _ => Option.none
      projectExists := fun _ => true
      groupRefs := fun _ => []
      getGroup := fun _ => Option.none
      allEndpoints := [] }
  conf := []
  returnAllIfNoFilter := true
  template := []
  u := fun s => s
  fullV3Catalog := fun _ _ =>
    [{ type := PyVal.str "identity", name := PyVal.str "keystone",
       description := PyVal.str "", endpoints := [] }]

namespace Py

variable {κ α : Type} [DecidableEq κ]

theorem lookup_update_self (m : List (κ × α)) (k : κ) (v : α) :
    lookup (update m k v) k = some v := by
  induction m with
  | nil => simp [update, lookup]
  | cons p rest ih =>
    by_cases hp : p.1 = k
    · simp [update, if_pos hp, lookup, hp]
    · simp [update, if_neg hp, lookup, if_neg hp, ih]

theorem lookup_update_ne (m : List (κ × α)) (k k' : κ) (v : α) (h : k' ≠ k) :
    lookup (update m k v) k' = lookup m k' := by
  induction m with
  | nil => simp [update, lookup, Ne.symm h]
  | cons p rest ih =>
    by_cases hp : p.1 = k
    · subst hp
      simp [update, lookup, Ne.symm h]
    · simp only [update, if_neg hp, lookup]
      by_cases hq : p.1 = k'
      · simp [if_pos hq]
      · simp [if_neg hq, ih]

theorem mem_keys_update_iff (m : List (κ × α)) (k k' : κ) (v : α) :
    k' ∈ keys (update m k v) ↔ k' ∈ keys m ∨ k' = k := by
  induction m with
  | nil => simp [update, keys]
  | cons p rest ih =>
    by_cases hp : p.1 = k
    · subst hp
      have hup : update (p :: rest) p.1 v = (p.1, v) :: rest := by
        simp [update]
      rw [hup]
      simp only [keys, List.map_cons, List.mem_cons]
      tauto
    · simp only [update, if_neg hp, keys, List.map_cons, List.mem_cons]
      have ih' := ih
      simp only [keys] at ih'
      tauto

theorem nodup_keys_update (m : List (κ × α)) (k : κ) (v : α)
    (h : (keys m).Nodup) : (keys (update m k v)).Nodup := by
  induction m with
  | nil => simp [update, keys]
  | cons p rest ih =>
    simp only [keys, List.map_cons, List.nodup_cons] at h
    by_cases hp : p.1 = k
    · subst hp
      simpa [update, keys, List.nodup_cons] using h
    · simp only [update, if_neg hp, keys, List.map_cons, List.nodup_cons]
      refine ⟨?_, ih h.2⟩
      intro hmem
      rcases (mem_keys_update_iff rest k p.1 v).1 hmem with h' | h'
      · exact h.1 h'
      · exact hp h'

theorem lookup_eq_none_iff (m : List (κ × α)) (k : κ) :
    lookup m k = Option.none ↔ k ∉ keys m := by
  induction m with
  | nil => simp [lookup, keys]
  | cons p rest ih =>
    by_cases hp : p.1 = k
    · subst hp
      simp [lookup, keys]
    · have hk : ¬k = p.1 := fun hh => hp hh.symm
      simp only [lookup, if_neg hp]
      rw [ih]
      simp [keys, hk]

theorem lookup_isSome_iff (m : List (κ × α)) (k : κ) :
    (lookup m k).isSome = true ↔ k ∈ keys m := by
  rcases h : lookup m k with _ | v
  · simp only [Option.isSome_none, Bool.false_eq_true, false_iff]
    exact (lookup_eq_none_iff m k).1 h
  · simp only [Option.isSome_some, true_iff]
    by_contra hmem
    rw [(lookup_eq_none_iff m k).2 hmem] at h
    cases h

theorem lookup_mem (m : List (κ × α)) (k : κ) (v : α) (h : lookup m k = some v) :
    (k, v) ∈ m := by
  induction m with
  | nil => cases h
  | cons p rest ih =>
    by_cases hp : p.1 = k
    · rw [lookup, if_pos hp] at h
      cases h
      cases p
      cases hp
      exact List.mem_cons_self _ _
    · rw [lookup, if_neg hp] at h
      exact List.mem_cons_of_mem _ (ih h)

end Py

theorem parse_templates_append (lines : List String) (line : String) :
    parse_templates (lines ++ [line]) =
      (parse_templates lines).bind (fun o => parseLine o line) := by
  unfold parse_templates
  rw [List.foldl_append]
  rfl

/-- C5: the template parser silently ignores lines without the separator,
but it is not total: a line whose stripped text does not split into exactly
two parts on the separator raises `ValueError`, and a `catalog.`-prefixed
key with fewer than four dot-segments raises `IndexError`; such lines are
not skipped as the claim states. -/
theorem parse_templates_totality (lines : List String) (o : Template) (line : String)
    (hok : parse_templates lines = .ok o) :
    (pyContains line " = " = false → parse_templates (lines ++ [line]) = .ok o) ∧
    (pyContains line " = " = true → (pySplit (pyStrip line) " = ").length ≠ 2 →
      parse_templates (lines ++ [line]) = .error .valueError) ∧
    (∀ k v, pyContains line " = " = true → pySplit (pyStrip line) " = " = [k, v] →
      pyStartsWith k "catalog." = true → (pySplit k ".").length < 4 →
      parse_templates (lines ++ [line]) = .error .indexError) := by
  have hstep : parse_templates (lines ++ [line]) = parseLine o line := by
    rw [parse_templates_append, hok]
    rfl
  refine ⟨?_, ?_, ?_⟩
  · intro hct
    rw [hstep]
    simp [parseLine, hct]
  · intro hct hlen
    rw [hstep]
    rcases hsp : pySplit (pyStrip line) " = " with _ | ⟨k, _ | ⟨v, _ | rest⟩⟩
    · simp [parseLine, hct, hsp]
    · simp [parseLine, hct, hsp]
    · rw [hsp] at hlen
      simp at hlen
    · simp [parseLine, hct, hsp]
  · intro k v hct hsp hstart hlt
    rw [hstep]
    simp [parseLine, hct, hsp, hstart, hlt]

/-- C5 counterexample: `parse_templates` is not total — a line with two
separators raises `ValueError` and a `catalog.`-prefixed key with only
three dot-segments raises `IndexError`, where the claim requires both
lines to be skipped without failure. -/
theorem parse_templates_crash_counterexample :
    parse_templates ["a = b = c"] = .error .valueError ∧
    parse_templates ["catalog.r.s = v"] = .error .indexError :=
  ⟨rfl, rfl⟩

/-- C5 witness: a separator-free line is silently ignored. -/
theorem parse_templates_totality_witness :
    parse_templates ["just a comment"] = .ok [] :=
  (parse_templates_totality [] [] "just a comment" rfl).1 (by decide)

theorem buildRegion_step_ok (subs : List (String × String)) (silent : List String)
    (acc : List (String × List (String × String))) (sv : String × List (String × String))
    (rest : List (String × List (String × String))) (d : List (String × String))
    (hb : buildServiceData subs silent [] sv.2 = .ok d) :
    buildRegion subs silent acc (sv :: rest) =
      buildRegion subs silent (Py.update acc sv.1 d) rest := by
  simp [buildRegion, hb]

theorem buildRegion_step_malformed (subs : List (String × String)) (silent : List String)
    (acc : List (String × List (String × String))) (sv : String × List (String × String))
    (rest : List (String × List (String × String)))
    (hb : buildServiceData subs silent [] sv.2 = .error .malformedEndpoint) :
    buildRegion subs silent acc (sv :: rest) = buildRegion subs silent acc rest := by
  simp [buildRegion, hb]

theorem buildRegion_step_error (subs : List (String × String)) (silent : List String)
    (acc : List (String × List (String × String))) (sv : String × List (String × String))
    (rest : List (String × List (String × String))) (e : PyErr)
    (hb : buildServiceData subs silent [] sv.2 = .error e)
    (hne : e ≠ PyErr.malformedEndpoint) :
    buildRegion subs silent acc (sv :: rest) = .error e := by
  cases e <;> first
    | exact absurd rfl hne
    | simp [buildRegion, hb]

theorem getCatalogGo_step_ok (subs : List (String × String)) (silent : List String)
    (acc : List (String × List (String × List (String × String))))
    (r : String × List (String × List (String × String))) (rest : Template)
    (rm : List (String × List (String × String)))
    (hb : buildRegion subs silent [] r.2 = .ok rm) :
    getCatalogGo subs silent acc (r :: rest) =
      getCatalogGo subs silent (Py.update acc r.1 rm) rest := by
  simp [getCatalogGo, hb]

theorem getCatalogGo_step_error (subs : List (String × String)) (silent : List String)
    (acc : List (String × List (String × List (String × String))))
    (r : String × List (String × List (String × String))) (rest : Template) (e : PyErr)
    (hb : buildRegion subs silent [] r.2 = .error e) :
    getCatalogGo subs silent acc (r :: rest) = .error e := by
  simp [getCatalogGo, hb]

theorem not_mem_keys_cons {κ α : Type} (p : κ × α) (rest : List (κ × α)) (k : κ)
    (h : k ∉ Py.keys (p :: rest)) : k ≠ p.1 ∧ k ∉ Py.keys rest := by
  rw [show Py.keys (p :: rest) = p.1 :: Py.keys rest from rfl, List.mem_cons] at h
  push_neg at h
  exact h

theorem buildRegion_untouched (subs : List (String × String)) (silent : List String)
    (svs : List (String × List (String × String))) :
    ∀ acc m, buildRegion subs silent acc svs = .ok m →
    ∀ service, service ∉ Py.keys svs → Py.lookup m service = Py.lookup acc service := by
  induction svs with
  | nil =>
    intro acc m h service _
    cases h
    rfl
  | cons sv rest ih =>
    intro acc m h service hnot
    obtain ⟨h1, h2⟩ := not_mem_keys_cons sv rest service hnot
    rcases hb : buildServiceData subs silent [] sv.2 with e | d
    · by_cases he : e = PyErr.malformedEndpoint
      · subst he
        rw [buildRegion_step_malformed subs silent acc sv rest hb] at h
        exact ih acc m h service h2
      · rw [buildRegion_step_error subs silent acc sv rest e hb he] at h
        cases h
    · rw [buildRegion_step_ok subs silent acc sv rest d hb] at h
      rw [ih _ _ h service h2]
      exact Py.lookup_update_ne _ _ _ _ h1

theorem buildRegion_lookup (subs : List (String × String)) (silent : List String)
    (svs : List (String × List (String × String))) :
    ∀ acc m, buildRegion subs silent acc svs = .ok m →
    (Py.keys svs).Nodup →
    ∀ service sref, Py.lookup svs service = some sref →
    (buildServiceData subs silent [] sref = .error .malformedEndpoint →
      Py.lookup m service = Py.lookup acc service) ∧
    (∀ d, buildServiceData subs silent [] sref = .ok d →
      Py.lookup m service = some d) := by
  induction svs with
  | nil =>
    intro acc m _ _ service sref hsv
    cases hsv
  | cons sv rest ih =>
    intro acc m h hnd service sref hsv
    rw [show Py.keys (sv :: rest) = sv.1 :: Py.keys rest from rfl, List.nodup_cons] at hnd
    by_cases hs : sv.1 = service
    · subst hs
      have hsv' : sv.2 = sref := by
        simpa [Py.lookup] using hsv
      subst hsv'
      constructor
      · intro hfail
        rw [buildRegion_step_malformed subs silent acc sv rest hfail] at h
        exact buildRegion_untouched subs silent rest acc m h sv.1 hnd.1
      · intro d hd
        rw [buildRegion_step_ok subs silent acc sv rest d hd] at h
        rw [buildRegion_untouched subs silent rest _ m h sv.1 hnd.1]
        exact Py.lookup_update_self _ _ _
    · rw [Py.lookup, if_neg hs] at hsv
      rcases hb : buildServiceData subs silent [] sv.2 with e | d
      · by_cases he : e = PyErr.malformedEndpoint
        · subst he
          rw [buildRegion_step_malformed subs silent acc sv rest hb] at h
          exact ih acc m h hnd.2 service sref hsv
        · rw [buildRegion_step_error subs silent acc sv rest e hb he] at h
          cases h
      · rw [buildRegion_step_ok subs silent acc sv rest d hb] at h
        have hres := ih _ m h hnd.2 service sref hsv
        constructor
        · intro hfail
          rw [hres.1 hfail]
          exact Py.lookup_update_ne _ _ _ _ (fun hh => hs hh.symm)
        · exact hres.2

theorem getCatalogGo_untouched (subs : List (String × String)) (silent : List String)
    (t : Template) :
    ∀ acc cat, getCatalogGo subs silent acc t = .ok cat →
    ∀ region, region ∉ Py.keys t → Py.lookup cat region = Py.lookup acc region := by
  induction t with
  | nil =>
    intro acc cat h region _
    cases h
    rfl
  | cons r rest ih =>
    intro acc cat h region hnot
    obtain ⟨h1, h2⟩ := not_mem_keys_cons r rest region hnot
    rcases hb : buildRegion subs silent [] r.2 with e | rm
    · rw [getCatalogGo_step_error subs silent acc r rest e hb] at h
      cases h
    · rw [getCatalogGo_step_ok subs silent acc r rest rm hb] at h
      rw [ih _ _ h region h2]
      exact Py.lookup_update_ne _ _ _ _ h1

theorem getCatalogGo_lookup (subs : List (String × String)) (silent : List String)
    (t : Template) :
    ∀ acc cat, getCatalogGo subs silent acc t = .ok cat →
    (Py.keys t).Nodup →
    ∀ region rref, Py.lookup t region = some rref →
    ∃ rm, buildRegion subs silent [] rref = .ok rm ∧ Py.lookup cat region = some rm := by
  induction t with
  | nil =>
    intro acc cat _ _ region rref hrv
    cases hrv
  | cons r rest ih =>
    intro acc cat h hnd region rref hrv
    rw [show Py.keys (r :: rest) = r.1 :: Py.keys rest from rfl, List.nodup_cons] at hnd
    rcases hb : buildRegion subs silent [] r.2 with e | rm
    · rw [getCatalogGo_step_error subs silent acc r rest e hb] at h
      cases h
    · rw [getCatalogGo_step_ok subs silent acc r rest rm hb] at h
      by_cases hs : r.1 = region
      · subst hs
        have hrv' : r.2 = rref := by
          simpa [Py.lookup] using hrv
        subst hrv'
        refine ⟨rm, hb, ?_⟩
        rw [getCatalogGo_untouched subs silent rest _ cat h r.1 hnd.1]
        exact Py.lookup_update_self _ _ _
      · rw [Py.lookup, if_neg hs] at hrv
        exact ih _ cat h hnd.2 region rref hrv

theorem buildRegion_error_ne_malformed (subs : List (String × String)) (silent : List String)
    (svs : List (String × List (String × String))) :
    ∀ acc e, buildRegion subs silent acc svs = .error e → e ≠ PyErr.malformedEndpoint := by
  induction svs with
  | nil =>
    intro acc e h
    cases h
  | cons sv rest ih =>
    intro acc e h
    rcases hb : buildServiceData subs silent [] sv.2 with e' | d
    · by_cases he : e' = PyErr.malformedEndpoint
      · subst he
        rw [buildRegion_step_malformed subs silent acc sv rest hb] at h
        exact ih acc e h
      · rw [buildRegion_step_error subs silent acc sv rest e' hb he] at h
        cases h
        exact he
    · rw [buildRegion_step_ok subs silent acc sv rest d hb] at h
      exact ih _ e h

theorem getCatalogGo_error_ne_malformed (subs : List (String × String)) (silent : List String)
    (t : Template) :
    ∀ acc e, getCatalogGo subs silent acc t = .error e → e ≠ PyErr.malformedEndpoint := by
  induction t with
  | nil =>
    intro acc e h
    cases h
  | cons r rest ih =>
    intro acc e h
    rcases hb : buildRegion subs silent [] r.2 with e' | rm
    · rw [getCatalogGo_step_error subs silent acc r rest e' hb] at h
      cases h
      exact buildRegion_error_ne_malformed subs silent r.2 [] _ hb
    · rw [getCatalogGo_step_ok subs silent acc r rest rm hb] at h
      exact ih _ e h

/-- C1: in the v2 catalog build, when interpolation of some attribute of a
service fails with an untolerated missing key (`MalformedEndpoint` from
`buildServiceData`), the whole service entry is dropped from its region's
mapping — including every attribute that substituted successfully — while
the region itself stays present and the failure is never propagated to the
caller of `get_catalog`.  This corrects the claim, which asserted that only
the failing attribute is dropped. -/
theorem get_catalog_drops_service_on_malformed
    (conf : List (String × String)) (user_id : String) (tenant_id : Option String)
    (templates : Template) (region : String)
    (rref : List (String × List (String × String))) (service : String)
    (sref : List (String × String))
    (hkeys : (Py.keys templates).Nodup) (hrkeys : (Py.keys rref).Nodup)
    (hreg : Py.lookup templates region = some rref)
    (hsvc : Py.lookup rref service = some sref)
    (hfail : buildServiceData (catalogSubs conf user_id tenant_id)
      (catalogSilent tenant_id) [] sref = .error .malformedEndpoint) :
    (∀ cat, get_catalog conf user_id tenant_id templates = .ok cat →
      ∃ rm, Py.lookup cat region = some rm ∧ Py.lookup rm service = Option.none) ∧
    get_catalog conf user_id tenant_id templates ≠ .error .malformedEndpoint := by
  constructor
  · intro cat hcat
    unfold get_catalog at hcat
    obtain ⟨rm, hrm, hlook⟩ :=
      getCatalogGo_lookup _ _ templates [] cat hcat hkeys region rref hreg
    refine ⟨rm, hlook, ?_⟩
    have h1 := (buildRegion_lookup _ _ rref [] rm hrm hrkeys service sref hsvc).1 hfail
    simpa [Py.lookup] using h1
  · intro hbad
    unfold get_catalog at hbad
    exact getCatalogGo_error_ne_malformed _ _ templates [] _ hbad rfl

/-- C1 counterexample: with attributes `a = x` (which substitutes to a
truthy value) and `b = $(missing)s` (untolerated missing key), the service
entry `s` disappears from region `r` entirely instead of being emitted
with the successful attribute `a`. -/
theorem get_catalog_whole_service_drop_counterexample :
    get_catalog [] "u" (some "t") [("r", [("s", [("a", "x"), ("b", "$(missing)s")])])] =
      .ok [("r", [])] ∧
    format_url "x" (catalogSubs [] "u" (some "t")) (catalogSilent (some "t")) =
      .ok (some "x") :=
  ⟨rfl, rfl⟩

/-- C1 witness: the amended theorem applied to the concrete template of the
counterexample. -/
theorem get_catalog_drops_service_witness :
    get_catalog [] "u" (some "t") [("r", [("s", [("a", "x"), ("b", "$(missing)s")])])] ≠
      .error .malformedEndpoint :=
  (get_catalog_drops_service_on_malformed [] "u" (some "t")
    [("r", [("s", [("a", "x"), ("b", "$(missing)s")])])] "r"
    [("s", [("a", "x"), ("b", "$(missing)s")])] "s" [("a", "x"), ("b", "$(missing)s")]
    (by decide) (by decide) rfl rfl rfl).2

/-- C2: the endpoint-group matching loop returns true exactly when every
filter key is present on the endpoint with a value in the accepted set
(scalar coerced to a one-element set, AND across keys, OR within a key),
and it is total whenever the endpoint carries every filter key; but — as
the counterexample shows — an endpoint lacking a filter key makes the
operation raise `KeyError` rather than return no-match, so the claimed
totality fails.  This corrects the claim. -/
theorem matchFilters_semantics (ep : PyDict) (F : List (String × FilterVal)) :
    (matchFilters ep F = .ok true ↔ ∀ f ∈ F, filterKeyOk ep f = true) ∧
    ((∀ f ∈ F, (Py.lookup ep f.1).isSome = true) → ∃ b, matchFilters ep F = .ok b) := by
  induction F with
  | nil =>
    constructor
    · simp [matchFilters]
    · intro _
      exact ⟨true, rfl⟩
  | cons f rest ih =>
    constructor
    · constructor
      · intro h g hg
        rcases hl : Py.lookup ep f.1 with _ | v
        · simp only [matchFilters, hl] at h
          cases h
        · simp only [matchFilters, hl] at h
          by_cases hv : v ∈ f.2.accepted
          · rw [if_pos hv] at h
            rcases List.mem_cons.1 hg with hg' | hg'
            · subst hg'
              simp [filterKeyOk, hl, hv]
            · exact ih.1.1 h g hg'
          · rw [if_neg hv] at h
            cases h
      · intro hall
        have hf := hall f (List.mem_cons_self f rest)
        rcases hl : Py.lookup ep f.1 with _ | v
        · rw [filterKeyOk, hl] at hf
          cases hf
        · rw [filterKeyOk, hl] at hf
          have hv : v ∈ f.2.accepted := by
            simpa using hf
          simp only [matchFilters, hl, if_pos hv]
          exact ih.1.2 (fun g hg => hall g (List.mem_cons_of_mem _ hg))
    · intro hsome
      rcases hl : Py.lookup ep f.1 with _ | v
      · have := hsome f (List.mem_cons_self f rest)
        rw [hl] at this
        cases this
      · by_cases hv : v ∈ f.2.accepted
        · obtain ⟨b, hb⟩ := ih.2 (fun g hg => hsome g (List.mem_cons_of_mem _ hg))
          refine ⟨b, ?_⟩
          simp only [matchFilters, hl, if_pos hv]
          exact hb
        · refine ⟨false, ?_⟩
          simp only [matchFilters, hl, if_neg hv]

/-- C2 counterexample: an endpoint lacking the filter key makes both the
per-endpoint match and the whole candidate filtering raise `KeyError`
instead of treating the endpoint as a non-match, refuting the claimed
totality. -/
theorem matchFilters_total_counterexample :
    matchFilters [("region", PyVal.str "r1")]
      [("interface", FilterVal.scalar (PyVal.str "public"))] = .error .keyError ∧
    filterCandidates [("interface", FilterVal.scalar (PyVal.str "public"))]
      [[("region", PyVal.str "r1")]] = .error .keyError :=
  ⟨rfl, rfl⟩

/-- C2 witness: a value inside a list filter matches (OR within a key). -/
theorem matchFilters_semantics_witness :
    matchFilters [("interface", PyVal.str "public")]
      [("interface", FilterVal.list [PyVal.str "public", PyVal.str "internal"])] = .ok true :=
  (matchFilters_semantics [("interface", PyVal.str "public")]
    [("interface", FilterVal.list [PyVal.str "public", PyVal.str "internal"])]).1.mpr
    (by decide)

/-- C8: endpoint-group matching is monotonically restrictive — if an
endpoint matches a filter mapping extended with a fresh key, it matches
the original mapping. -/
theorem matchFilters_monotone (ep : PyDict) (F : List (String × FilterVal))
    (k : String) (fv : FilterVal) (hk : k ∉ F.map Prod.fst)
    (h : matchFilters ep (F ++ [(k, fv)]) = .ok true) :
    matchFilters ep F = .ok true := by
  induction F with
  | nil => rfl
  | cons f rest ih =>
    have hk2 : k ∉ rest.map Prod.fst := by
      intro hm
      exact hk (by simp [List.mem_cons] at *; tauto)
    rcases hl : Py.lookup ep f.1 with _ | v
    · rw [List.cons_append] at h
      simp only [matchFilters, hl] at h
      cases h
    · rw [List.cons_append] at h
      simp only [matchFilters, hl] at h ⊢
      by_cases hv : v ∈ f.2.accepted
      · rw [if_pos hv] at h ⊢
        exact ih hk2 h
      · rw [if_neg hv] at h
        cases h

/-- C8 witness: the monotonicity theorem applied at a concrete endpoint
and filter extension. -/
theorem matchFilters_monotone_witness :
    matchFilters [("region", PyVal.str "r1"), ("interface", PyVal.str "public")]
      [("region", FilterVal.scalar (PyVal.str "r1"))] = .ok true :=
  matchFilters_monotone [("region", PyVal.str "r1"), ("interface", PyVal.str "public")]
    [("region", FilterVal.scalar (PyVal.str "r1"))] "interface"
    (FilterVal.scalar (PyVal.str "public")) (by decide) rfl

theorem directPhaseGo_nodup (env : EFEnv) (pid : String) (refs : List String) :
    ∀ acc, (Py.keys acc.1).Nodup → (Py.keys (directPhaseGo env pid acc refs).1).Nodup := by
  induction refs with
  | nil =>
    intro acc h
    exact h
  | cons r rest ih =>
    intro acc h
    rcases hg : env.getEndpoint r with _ | ep
    · simp only [directPhaseGo, hg]
      exact ih _ h
    · simp only [directPhaseGo, hg]
      exact ih _ (Py.nodup_keys_update _ _ _ h)

theorem directPhase_nodup (env : EFEnv) (pid : String) :
    (Py.keys (directPhase env pid).1).Nodup :=
  directPhaseGo_nodup env pid (env.directRefs pid) ([], []) (by simp [Py.keys])

theorem directPhaseGo_lookup_some (env : EFEnv) (pid : String) (refs : List String) :
    ∀ acc k v, Py.lookup (directPhaseGo env pid acc refs).1 k = some v →
    Py.lookup acc.1 k = some v ∨
      ∃ r, k = PyVal.str r ∧ env.getEndpoint r = some v ∧ r ∈ refs := by
  induction refs with
  | nil =>
    intro acc k v h
    exact Or.inl h
  | cons r rest ih =>
    intro acc k v h
    rcases hg : env.getEndpoint r with _ | ep
    · simp only [directPhaseGo, hg] at h
      rcases ih _ k v h with h' | ⟨r', h1, h2, h3⟩
      · exact Or.inl h'
      · exact Or.inr ⟨r', h1, h2, List.mem_cons_of_mem _ h3⟩
    · simp only [directPhaseGo, hg] at h
      rcases ih _ k v h with h' | ⟨r', h1, h2, h3⟩
      · by_cases hk : k = PyVal.str r
        · subst hk
          rw [Py.lookup_update_self] at h'
          cases h'
          exact Or.inr ⟨r, rfl, hg, List.mem_cons_self r rest⟩
        · rw [Py.lookup_update_ne _ _ _ _ hk] at h'
          exact Or.inl h'
      · exact Or.inr ⟨r', h1, h2, List.mem_cons_of_mem _ h3⟩

theorem directPhaseGo_found (env : EFEnv) (pid : String) (refs : List String) :
    ∀ acc r ep, env.getEndpoint r = some ep →
    (r ∈ refs ∨ Py.lookup acc.1 (PyVal.str r) = some ep) →
    Py.lookup (directPhaseGo env pid acc refs).1 (PyVal.str r) = some ep := by
  induction refs with
  | nil =>
    intro acc r ep _ hin
    rcases hin with hin | hin
    · cases hin
    · exact hin
  | cons r' rest ih =>
    intro acc r ep hfound hin
    rcases hg : env.getEndpoint r' with _ | ep'
    · simp only [directPhaseGo, hg]
      rcases hin with hin | hin
      · rcases List.mem_cons.1 hin with hin' | hin'
        · subst hin'
          rw [hfound] at hg
          cases hg
        · exact ih _ r ep hfound (Or.inl hin')
      · exact ih _ r ep hfound (Or.inr hin)
    · simp only [directPhaseGo, hg]
      by_cases hr : r = r'
      · subst hr
        rw [hfound] at hg
        cases hg
        exact ih _ r ep hfound (Or.inr (Py.lookup_update_self _ _ _))
      · have hk : PyVal.str r ≠ PyVal.str r' := by
          intro hh
          exact hr (PyVal.str.injEq r r' ▸ hh)
        rcases hin with hin | hin
        · rcases List.mem_cons.1 hin with hin' | hin'
          · exact absurd hin' hr
          · exact ih _ r ep hfound (Or.inl hin')
        · exact ih _ r ep hfound
            (Or.inr (by rw [Py.lookup_update_ne _ _ _ _ hk]; exact hin))

theorem directPhaseGo_removed (env : EFEnv) (pid : String) (refs : List String) :
    ∀ acc r, env.getEndpoint r = Option.none →
    (r ∈ refs ∨ (r, pid) ∈ acc.2) →
    (r, pid) ∈ (directPhaseGo env pid acc refs).2 := by
  induction refs with
  | nil =>
    intro acc r _ hin
    rcases hin with hin | hin
    · cases hin
    · exact hin
  | cons r' rest ih =>
    intro acc r hstale hin
    rcases hg : env.getEndpoint r' with _ | ep'
    · simp only [directPhaseGo, hg]
      rcases hin with hin | hin
      · rcases List.mem_cons.1 hin with hin' | hin'
        · subst hin'
          exact ih _ r hstale (Or.inr (List.mem_append_right _ (List.mem_cons_self _ _)))
        · exact ih _ r hstale (Or.inl hin')
      · exact ih _ r hstale (Or.inr (List.mem_append_left _ hin))
    · simp only [directPhaseGo, hg]
      rcases hin with hin | hin
      · rcases List.mem_cons.1 hin with hin' | hin'
        · subst hin'
          rw [hstale] at hg
          cases hg
        · exact ih _ r hstale (Or.inl hin')
      · exact ih _ r hstale (Or.inr hin)

theorem addGroupEndpoints_preserves (eps : List PyDict) :
    ∀ m m', addGroupEndpoints m eps = .ok m' →
    ∀ k v, Py.lookup m k = some v → Py.lookup m' k = some v := by
  induction eps with
  | nil =>
    intro m m' h k v hk
    cases h
    exact hk
  | cons ep rest ih =>
    intro m m' h k v hk
    rcases hid : Py.lookup ep "id" with _ | eid
    · simp only [addGroupEndpoints, hid] at h
      cases h
    · simp only [addGroupEndpoints, hid] at h
      by_cases hs : (Py.lookup m eid).isSome = true
      · rw [if_pos hs] at h
        exact ih _ _ h k v hk
      · rw [if_neg hs] at h
        have hnone : Py.lookup m eid = Option.none := by
          rcases hval : Py.lookup m eid with _ | w
          · rfl
          · rw [hval] at hs
            simp at hs
        have hne : k ≠ eid := by
          intro hh
          subst hh
          rw [hk] at hnone
          cases hnone
        exact ih _ _ h k v (by rw [Py.lookup_update_ne _ _ _ _ hne]; exact hk)

theorem addGroupEndpoints_nodup (eps : List PyDict) :
    ∀ m m', addGroupEndpoints m eps = .ok m' →
    (Py.keys m).Nodup → (Py.keys m').Nodup := by
  induction eps with
  | nil =>
    intro m m' h hnd
    cases h
    exact hnd
  | cons ep rest ih =>
    intro m m' h hnd
    rcases hid : Py.lookup ep "id" with _ | eid
    · simp only [addGroupEndpoints, hid] at h
      cases h
    · simp only [addGroupEndpoints, hid] at h
      by_cases hs : (Py.lookup m eid).isSome = true
      · rw [if_pos hs] at h
        exact ih _ _ h hnd
      · rw [if_neg hs] at h
        exact ih _ _ h (Py.nodup_keys_update _ _ _ hnd)

theorem addGroupEndpoints_new_keys (eps : List PyDict) :
    ∀ m m', addGroupEndpoints m eps = .ok m' →
    ∀ k, Py.lookup m' k ≠ Option.none →
    Py.lookup m k ≠ Option.none ∨ ∃ ep ∈ eps, Py.lookup ep "id" = some k := by
  induction eps with
  | nil =>
    intro m m' h k hk
    cases h
    exact Or.inl hk
  | cons ep rest ih =>
    intro m m' h k hk
    rcases hid : Py.lookup ep "id" with _ | eid
    · simp only [addGroupEndpoints, hid] at h
      cases h
    · simp only [addGroupEndpoints, hid] at h
      by_cases hs : (Py.lookup m eid).isSome = true
      · rw [if_pos hs] at h
        rcases ih _ _ h k hk with h' | ⟨ep', h1, h2⟩
        · exact Or.inl h'
        · exact Or.inr ⟨ep', List.mem_cons_of_mem _ h1, h2⟩
      · rw [if_neg hs] at h
        rcases ih _ _ h k hk with h' | ⟨ep', h1, h2⟩
        · by_cases hke : k = eid
          · subst hke
            exact Or.inr ⟨ep, List.mem_cons_self _ _, hid⟩
          · rw [Py.lookup_update_ne _ _ _ _ hke] at h'
            exact Or.inl h'
        · exact Or.inr ⟨ep', List.mem_cons_of_mem _ h1, h2⟩

theorem filterCandidates_subset (filters : List (String × FilterVal))
    (eps : List PyDict) :
    ∀ eps', filterCandidates filters eps = .ok eps' →
    ∀ ep, ep ∈ eps' → ep ∈ eps := by
  induction eps with
  | nil =>
    intro eps' h ep hm
    cases h
    cases hm
  | cons e rest ih =>
    intro eps' h ep hm
    rcases hb : matchFilters e filters with er | b
    · simp only [filterCandidates, hb] at h
      cases h
    · simp only [filterCandidates, hb] at h
      rcases ht : filterCandidates filters rest with er | tail
      · rw [ht] at h
        cases h
      · rw [ht] at h
        cases h
        cases b
        · exact List.mem_cons_of_mem _ (ih _ ht ep (by simpa using hm))
        · rcases List.mem_cons.1 (by simpa using hm) with hm' | hm'
          · subst hm'
            exact List.mem_cons_self _ _
          · exact List.mem_cons_of_mem _ (ih _ ht ep hm')

theorem getEndpointsFilteredByGroup_subset (env : EFEnv) (gid : String)
    (eps : List PyDict) (h : getEndpointsFilteredByGroup env gid = .ok eps) :
    ∀ ep, ep ∈ eps → ep ∈ env.allEndpoints := by
  rcases hg : env.getGroup gid with _ | g
  · rw [getEndpointsFilteredByGroup, hg] at h
    cases h
  · rw [getEndpointsFilteredByGroup, hg] at h
    exact filterCandidates_subset g.filters env.allEndpoints eps h

theorem groupsLoop_preserves (env : EFEnv) (groups : List EndpointGroup) :
    ∀ m m', groupsLoop env m groups = .ok m' →
    ∀ k v, Py.lookup m k = some v → Py.lookup m' k = some v := by
  induction groups with
  | nil =>
    intro m m' h k v hk
    cases h
    exact hk
  | cons g rest ih =>
    intro m m' h k v hk
    rcases hf : getEndpointsFilteredByGroup env g.id with er | eps
    · simp only [groupsLoop, hf] at h
      cases h
    · simp only [groupsLoop, hf] at h
      rcases ha : addGroupEndpoints m eps with er | m1
      · rw [ha] at h
        cases h
      · rw [ha] at h
        exact ih _ _ h k v (addGroupEndpoints_preserves eps m m1 ha k v hk)

theorem groupsLoop_nodup (env : EFEnv) (groups : List EndpointGroup) :
    ∀ m m', groupsLoop env m groups = .ok m' →
    (Py.keys m).Nodup → (Py.keys m').Nodup := by
  induction groups with
  | nil =>
    intro m m' h hnd
    cases h
    exact hnd
  | cons g rest ih =>
    intro m m' h hnd
    rcases hf : getEndpointsFilteredByGroup env g.id with er | eps
    · simp only [groupsLoop, hf] at h
      cases h
    · simp only [groupsLoop, hf] at h
      rcases ha : addGroupEndpoints m eps with er | m1
      · rw [ha] at h
        cases h
      · rw [ha] at h
        exact ih _ _ h (addGroupEndpoints_nodup eps m m1 ha hnd)

theorem groupsLoop_new_keys (env : EFEnv) (groups : List EndpointGroup) :
    ∀ m m', groupsLoop env m groups = .ok m' →
    ∀ k, Py.lookup m' k ≠ Option.none →
    Py.lookup m k ≠ Option.none ∨ ∃ ep ∈ env.allEndpoints, Py.lookup ep "id" = some k := by
  induction groups with
  | nil =>
    intro m m' h k hk
    cases h
    exact Or.inl hk
  | cons g rest ih =>
    intro m m' h k hk
    rcases hf : getEndpointsFilteredByGroup env g.id with er | eps
    · simp only [groupsLoop, hf] at h
      cases h
    · simp only [groupsLoop, hf] at h
      rcases ha : addGroupEndpoints m eps with er | m1
      · rw [ha] at h
        cases h
      · rw [ha] at h
        rcases ih _ _ h k hk with h' | h'
        · rcases addGroupEndpoints_new_keys eps m m1 ha k h' with h'' | ⟨ep, h1, h2⟩
          · exact Or.inl h''
          · exact Or.inr ⟨ep, getEndpointsFilteredByGroup_subset env g.id eps hf ep h1, h2⟩
        · exact Or.inr h'

/-- C3: whenever project endpoint resolution succeeds, the returned mapping
is keyed without duplicates (each endpoint id appears at most once), and
every entry established by the direct-association phase survives unchanged
— group-filter endpoints never overwrite direct entries. -/
theorem list_endpoints_for_project_no_dup (env : EFEnv) (pid : String)
    (res : List (PyVal × PyDict) × List (String × String))
    (h : list_endpoints_for_project env pid = .ok res) :
    (Py.keys res.1).Nodup ∧
    ∀ k v, Py.lookup (directPhase env pid).1 k = some v → Py.lookup res.1 k = some v := by
  simp only [list_endpoints_for_project] at h
  rcases hg : getEndpointGroupsForProject env pid with e | groups
  · simp only [hg] at h
    cases h
  · simp only [hg] at h
    rcases hl : groupsLoop env (directPhase env pid).1 groups with e | m
    · simp only [hl] at h
      cases h
    · simp only [hl] at h
      cases h
      constructor
      · exact groupsLoop_nodup env groups _ _ hl (directPhase_nodup env pid)
      · intro k v hk
        exact groupsLoop_preserves env groups _ _ hl k v hk

/-- C3 witness: the theorem applied to a concrete environment where the
direct association `e1` and the group-matched endpoint `e2` both appear
exactly once. -/
theorem list_endpoints_for_project_no_dup_witness :
    (Py.keys ([(PyVal.str "e1", [("id", PyVal.str "e1")]),
      (PyVal.str "e2", [("id", PyVal.str "e2"), ("interface", PyVal.str "public")])] :
        List (PyVal × PyDict))).Nodup ∧
    Py.lookup ([(PyVal.str "e1", [("id", PyVal.str "e1")]),
      (PyVal.str "e2", [("id", PyVal.str "e2"), ("interface", PyVal.str "public")])] :
        List (PyVal × PyDict)) (PyVal.str "e1") = some [("id", PyVal.str "e1")] := by
  have h := list_endpoints_for_project_no_dup efEnvC3 "p"
    ([(PyVal.str "e1", [("id", PyVal.str "e1")]),
      (PyVal.str "e2", [("id", PyVal.str "e2"), ("interface", PyVal.str "public")])], [])
    rfl
  exact ⟨h.1, h.2 (PyVal.str "e1") [("id", PyVal.str "e1")] rfl⟩

/-- C4: a direct association whose endpoint the catalog no longer knows is
omitted from the result, a removal call for exactly that stale association
is recorded, and every other direct association with a live endpoint is
still resolved. -/
theorem stale_direct_association_healed (env : EFEnv) (pid refId : String)
    (res : List (PyVal × PyDict) × List (String × String))
    (hmem : refId ∈ env.directRefs pid)
    (hstale : env.getEndpoint refId = Option.none)
    (hcons : ∀ ep ∈ env.allEndpoints, Py.lookup ep "id" ≠ some (PyVal.str refId))
    (h : list_endpoints_for_project env pid = .ok res) :
    Py.lookup res.1 (PyVal.str refId) = Option.none ∧
    (refId, pid) ∈ res.2 ∧
    ∀ r ep, r ∈ env.directRefs pid → env.getEndpoint r = some ep →
      Py.lookup res.1 (PyVal.str r) = some ep := by
  simp only [list_endpoints_for_project] at h
  rcases hg : getEndpointGroupsForProject env pid with e | groups
  · simp only [hg] at h
    cases h
  · simp only [hg] at h
    rcases hl : groupsLoop env (directPhase env pid).1 groups with e | m
    · simp only [hl] at h
      cases h
    · simp only [hl] at h
      cases h
      refine ⟨?_, ?_, ?_⟩
      · rcases hres : Py.lookup m (PyVal.str refId) with _ | v
        · rfl
        · exfalso
          have hne : Py.lookup m (PyVal.str refId) ≠ Option.none := by
            rw [hres]
            intro hh
            cases hh
          rcases groupsLoop_new_keys env groups _ _ hl (PyVal.str refId) hne with h' | ⟨ep, h1, h2⟩
          · rcases hdp : Py.lookup (directPhase env pid).1 (PyVal.str refId) with _ | w
            · exact h' hdp
            · rcases directPhaseGo_lookup_some env pid (env.directRefs pid) ([], [])
                (PyVal.str refId) w hdp with h'' | ⟨r', hr1, hr2, _⟩
              · simp [Py.lookup] at h''
              · have hreq : r' = refId := by
                  injection hr1 with hinj
                  exact hinj.symm
                subst hreq
                rw [hstale] at hr2
                cases hr2
          · exact hcons ep h1 h2
      · exact directPhaseGo_removed env pid (env.directRefs pid) ([], []) refId hstale
          (Or.inl hmem)
      · intro r ep hr hfound
        exact groupsLoop_preserves env groups _ _ hl (PyVal.str r) ep
          (directPhaseGo_found env pid (env.directRefs pid) ([], []) r ep hfound (Or.inl hr))

/-- C4 witness: the theorem applied to a concrete environment with the
stale association `stale` and the live association `good`. -/
theorem stale_direct_association_healed_witness :
    Py.lookup ([(PyVal.str "good", [("id", PyVal.str "good")])] : List (PyVal × PyDict))
      (PyVal.str "stale") = Option.none ∧
    ("stale", "p") ∈ [("stale", "p")] := by
  have h := stale_direct_association_healed efEnvC4 "p" "stale"
    ([(PyVal.str "good", [("id", PyVal.str "good")])], [("stale", "p")])
    (List.mem_cons_self _ _) rfl
    (fun ep hep => absurd hep (List.not_mem_nil ep)) rfl
  exact ⟨h.1, h.2.1⟩

theorem mem_update_key {κ α : Type} [DecidableEq κ] (m : List (κ × α)) (k : κ) (v : α)
    (p : κ × α) (h : p ∈ Py.update m k v) : p.1 = k ∨ p ∈ m := by
  induction m with
  | nil =>
    rcases List.mem_singleton.1 h with rfl
    exact Or.inl rfl
  | cons q rest ih =>
    by_cases hq : q.1 = k
    · rw [Py.update, if_pos hq] at h
      rcases List.mem_cons.1 h with h' | h'
      · subst h'
        exact Or.inl hq
      · exact Or.inr (List.mem_cons_of_mem _ h')
    · rw [Py.update, if_neg hq] at h
      rcases List.mem_cons.1 h with h' | h'
      · subst h'
        exact Or.inr (List.mem_cons_self _ _)
      · rcases ih h' with h'' | h''
        · exact Or.inl h''
        · exact Or.inr (List.mem_cons_of_mem _ h'')

theorem collectFieldsGo_good (sref : List (String × String)) :
    ∀ acc, (∀ p ∈ acc.2, extract_interface_from_string p.1 ≠ Option.none) →
    ∀ p ∈ (collectFieldsGo acc sref).2, extract_interface_from_string p.1 ≠ Option.none := by
  induction sref with
  | nil =>
    intro acc h
    exact h
  | cons kv rest ih =>
    intro acc h p
    by_cases hk : kv.1 ∈ endpoint_properties
    · simp only [collectFieldsGo, if_pos hk]
      exact ih (Py.update acc.1 kv.1 (PyVal.str kv.2), acc.2) h p
    · rcases hx : extract_interface_from_string kv.1 with _ | i
      · simp only [collectFieldsGo, if_neg hk, hx]
        exact ih _ h p
      · simp only [collectFieldsGo, if_neg hk, hx]
        refine ih _ ?_ p
        intro q hq
        rcases mem_update_key acc.2 kv.1 kv.2 q hq with h' | h'
        · rw [h', hx]
          intro hh
          cases hh
        · exact h q h'

theorem collectFieldsGo_keeps_keys (sref : List (String × String)) :
    ∀ acc k, k ∈ Py.keys acc.2 → k ∈ Py.keys (collectFieldsGo acc sref).2 := by
  induction sref with
  | nil =>
    intro acc k h
    exact h
  | cons kv rest ih =>
    intro acc k h
    by_cases hk : kv.1 ∈ endpoint_properties
    · simp only [collectFieldsGo, if_pos hk]
      exact ih (Py.update acc.1 kv.1 (PyVal.str kv.2), acc.2) k h
    · rcases hx : extract_interface_from_string kv.1 with _ | i
      · simp only [collectFieldsGo, if_neg hk, hx]
        exact ih _ k h
      · simp only [collectFieldsGo, if_neg hk, hx]
        exact ih _ k ((Py.mem_keys_update_iff acc.2 kv.1 k kv.2).2 (Or.inl h))

theorem collectFieldsGo_adds (sref : List (String × String)) :
    ∀ acc k v, (k, v) ∈ sref → k ∉ endpoint_properties →
    extract_interface_from_string k ≠ Option.none →
    k ∈ Py.keys (collectFieldsGo acc sref).2 := by
  induction sref with
  | nil =>
    intro acc k v h
    cases h
  | cons kv rest ih =>
    intro acc k v hm hk hx
    rcases List.mem_cons.1 hm with h' | h'
    · have hk1 : kv.1 = k := by
        rw [← h']
      rcases hx' : extract_interface_from_string kv.1 with _ | i
      · rw [hk1] at hx'
        exact absurd hx' hx
      · have hkp : kv.1 ∉ endpoint_properties := by
          rw [hk1]
          exact hk
        simp only [collectFieldsGo, if_neg hkp, hx']
        refine collectFieldsGo_keeps_keys rest _ k ?_
        exact (Py.mem_keys_update_iff acc.2 kv.1 k kv.2).2 (Or.inr hk1.symm)
    · by_cases hkp : kv.1 ∈ endpoint_properties
      · simp only [collectFieldsGo, if_pos hkp]
        exact ih _ k v h' hk hx
      · rcases hx' : extract_interface_from_string kv.1 with _ | i
        · simp only [collectFieldsGo, if_neg hkp, hx']
          exact ih _ k v h' hk hx
        · simp only [collectFieldsGo, if_neg hkp, hx']
          exact ih _ k v h' hk hx

theorem interfaceLoop_no_name (u : String → String) (region service : String)
    (sref : List (String × String)) (d : PyDict) (intfs : List (String × String))
    (hname : Py.lookup sref "name" = Option.none) (hne : intfs ≠ []) :
    interfaceLoop u region service sref d intfs = .error .keyError := by
  cases intfs with
  | nil => exact absurd rfl hne
  | cons kv rest => simp [interfaceLoop, hname]

theorem keys_ne_nil {κ α : Type} (m : List (κ × α)) (k : κ) (h : k ∈ Py.keys m) :
    m ≠ [] := by
  intro hm
  subst hm
  cases h

theorem endpointsOfService_no_name (u : String → String) (region service : String)
    (sref : List (String × String)) (k v : String)
    (hkv : (k, v) ∈ sref) (hk : k ∉ endpoint_properties)
    (hurl : pyContains k "URL" = true)
    (hname : Py.lookup sref "name" = Option.none) :
    endpointsOfService u region service sref = .error .keyError := by
  have hx : extract_interface_from_string k ≠ Option.none := by
    rw [extract_interface_from_string, if_pos hurl]
    intro hh
    cases hh
  have hmem := collectFieldsGo_adds sref (initialEndpointDict u region service, []) k v hkv hk hx
  exact interfaceLoop_no_name u region service sref _ _ hname
    (keys_ne_nil _ k hmem)

theorem interfaceLoop_error_keyError (u : String → String) (region service : String)
    (sref : List (String × String)) (intfs : List (String × String)) :
    ∀ d e, (∀ p ∈ intfs, extract_interface_from_string p.1 ≠ Option.none) →
    interfaceLoop u region service sref d intfs = .error e → e = .keyError := by
  induction intfs with
  | nil =>
    intro d e _ h
    cases h
  | cons kv rest ih =>
    intro d e hgood h
    rcases hname : Py.lookup sref "name" with _ | name
    · simp only [interfaceLoop, hname] at h
      cases h
      rfl
    · rcases hx : extract_interface_from_string kv.1 with _ | i
      · exact absurd hx (hgood kv (List.mem_cons_self _ _))
      · simp only [interfaceLoop, hname, hx] at h
        rcases hrec : interfaceLoop u region service sref
            (Py.update (Py.update (Py.update (Py.update d "id"
              (.str (u (region ++ service ++ name ++ i)))) "legacy_endpoint_id"
              (.str (u (region ++ service ++ name ++ i)))) "interface" (.str i)) "url"
              (.str kv.2)) rest with e' | tail
        · rw [hrec] at h
          cases h
          exact ih _ _ (fun p hp => hgood p (List.mem_cons_of_mem _ hp)) hrec
        · rw [hrec] at h
          cases h

theorem endpointsOfService_error_keyError (u : String → String) (region service : String)
    (sref : List (String × String)) (e : PyErr)
    (h : endpointsOfService u region service sref = .error e) : e = .keyError := by
  refine interfaceLoop_error_keyError u region service sref _ _ e ?_ h
  exact collectFieldsGo_good sref _ (fun p hp => absurd hp (List.not_mem_nil p))

theorem regionEndpoints_error_keyError (u : String → String) (region : String)
    (svs : List (String × List (String × String))) :
    ∀ e, regionEndpoints u region svs = .error e → e = .keyError := by
  induction svs with
  | nil =>
    intro e h
    cases h
  | cons sv rest ih =>
    intro e h
    rcases hb : endpointsOfService u region sv.1 sv.2 with e' | eps
    · simp only [regionEndpoints, hb] at h
      cases h
      exact endpointsOfService_error_keyError u region sv.1 sv.2 _ hb
    · simp only [regionEndpoints, hb] at h
      rcases hr : regionEndpoints u region rest with e' | tail
      · rw [hr] at h
        cases h
        exact ih _ hr
      · rw [hr] at h
        cases h

theorem regionEndpoints_ok_services (u : String → String) (region : String)
    (svs : List (String × List (String × String))) :
    ∀ l, regionEndpoints u region svs = .ok l →
    ∀ sv ∈ svs, ∃ l', endpointsOfService u region sv.1 sv.2 = .ok l' := by
  induction svs with
  | nil =>
    intro l _ sv hm
    cases hm
  | cons sv0 rest ih =>
    intro l h sv hm
    rcases hb : endpointsOfService u region sv0.1 sv0.2 with e' | eps
    · simp only [regionEndpoints, hb] at h
      cases h
    · simp only [regionEndpoints, hb] at h
      rcases hr : regionEndpoints u region rest with e' | tail
      · rw [hr] at h
        cases h
      · rcases List.mem_cons.1 hm with h' | h'
        · subst h'
          exact ⟨eps, hb⟩
        · exact ih tail hr sv h'

theorem list_endpoints_error_keyError (u : String → String) (t : Template) :
    ∀ e, list_endpoints u t = .error e → e = .keyError := by
  induction t with
  | nil =>
    intro e h
    cases h
  | cons r rest ih =>
    intro e h
    rcases hb : regionEndpoints u r.1 r.2 with e' | eps
    · simp only [list_endpoints, hb] at h
      cases h
      exact regionEndpoints_error_keyError u r.1 r.2 _ hb
    · simp only [list_endpoints, hb] at h
      rcases hr : list_endpoints u rest with e' | tail
      · rw [hr] at h
        cases h
        exact ih _ hr
      · rw [hr] at h
        cases h

theorem list_endpoints_ok_regions (u : String → String) (t : Template) :
    ∀ l, list_endpoints u t = .ok l →
    ∀ r ∈ t, ∃ l', regionEndpoints u r.1 r.2 = .ok l' := by
  induction t with
  | nil =>
    intro l _ r hm
    cases hm
  | cons r0 rest ih =>
    intro l h r hm
    rcases hb : regionEndpoints u r0.1 r0.2 with e' | eps
    · simp only [list_endpoints, hb] at h
      cases h
    · simp only [list_endpoints, hb] at h
      rcases hr : list_endpoints u rest with e' | tail
      · rw [hr] at h
        cases h
      · rcases List.mem_cons.1 hm with h' | h'
        · subst h'
          exact ⟨eps, hb⟩
        · exact ih tail hr r h'

/-- C9: a service template that declares an interface-URL attribute but has
no `name` attribute makes `list_endpoints` fail with the `KeyError` from
`service_ref['name']`, which surfaces to the caller — the interfaces are
not silently skipped. -/
theorem list_endpoints_missing_name_fails (u : String → String) (t : Template)
    (region : String) (rref : List (String × List (String × String)))
    (service : String) (sref : List (String × String)) (k v : String)
    (hreg : (region, rref) ∈ t) (hsvc : (service, sref) ∈ rref)
    (hkv : (k, v) ∈ sref) (hk : k ∉ endpoint_properties)
    (hurl : pyContains k "URL" = true)
    (hname : Py.lookup sref "name" = Option.none) :
    list_endpoints u t = .error .keyError := by
  rcases hle : list_endpoints u t with e | l
  · rw [list_endpoints_error_keyError u t e hle]
  · exfalso
    obtain ⟨l', hr⟩ := list_endpoints_ok_regions u t l hle (region, rref) hreg
    obtain ⟨l'', hs⟩ := regionEndpoints_ok_services u region rref l' hr (service, sref) hsvc
    rw [endpointsOfService_no_name u region service sref k v hkv hk hurl hname] at hs
    cases hs

/-- C9 witness: the theorem applied to a one-service template with a
`publicURL` attribute and no `name`. -/
theorem list_endpoints_missing_name_witness :
    list_endpoints (fun s => s) [("R", [("svc", [("publicURL", "http://x")])])] =
      .error .keyError :=
  list_endpoints_missing_name_fails (fun s => s)
    [("R", [("svc", [("publicURL", "http://x")])])] "R" [("svc", [("publicURL", "http://x")])]
    "svc" [("publicURL", "http://x")] "publicURL" "http://x"
    (List.mem_cons_self _ _) (List.mem_cons_self _ _) (List.mem_cons_self _ _)
    (by decide) (by decide) rfl

theorem servicesRegionGo_append (u : String → String)
    (l1 l2 : List (String × List (String × String))) :
    ∀ sd, servicesRegionGo u sd (l1 ++ l2) =
      servicesRegionGo u (servicesRegionGo u sd l1) l2 := by
  induction l1 with
  | nil =>
    intro sd
    rfl
  | cons sv rest ih =>
    intro sd
    rw [List.cons_append]
    simp only [servicesRegionGo]
    exact ih _

theorem listServicesDictGo_flat (u : String → String) (t : Template) :
    ∀ sd, listServicesDictGo u sd t = servicesRegionGo u sd (flatPairs t) := by
  induction t with
  | nil =>
    intro sd
    rfl
  | cons r rest ih =>
    intro sd
    simp only [listServicesDictGo, flatPairs, servicesRegionGo_append]
    rw [ih]

theorem servicesRegionGo_nodup (u : String → String)
    (svs : List (String × List (String × String))) :
    ∀ sd, (Py.keys sd).Nodup → (Py.keys (servicesRegionGo u sd svs)).Nodup := by
  induction svs with
  | nil =>
    intro sd h
    exact h
  | cons sv rest ih =>
    intro sd h
    simp only [servicesRegionGo]
    exact ih _ (Py.nodup_keys_update _ _ _ h)

theorem servicesRegionGo_lookup (u : String → String)
    (svs : List (String × List (String × String))) :
    ∀ sd s, Py.lookup (servicesRegionGo u sd svs) s =
      (((svs.filter (fun sv => sv.1 = s)).map Prod.snd).getLast?).elim
        (Py.lookup sd s) (fun sref => some (serviceRecord u s sref)) := by
  induction svs with
  | nil =>
    intro sd s
    rfl
  | cons sv rest ih =>
    intro sd s
    simp only [servicesRegionGo]
    by_cases hs : sv.1 = s
    · rw [List.filter_cons_of_pos (by simpa using hs), List.map_cons]
      rcases hL : (List.map Prod.snd
          (List.filter (fun sv => decide (sv.1 = s)) rest)) with _ | ⟨x, xs⟩
      · have ihd := ih (Py.update sd sv.1 (serviceRecord u sv.1 sv.2)) s
        rw [hL] at ihd
        simp only [List.getLast?_nil, Option.elim] at ihd
        rw [ihd]
        simp only [List.getLast?_singleton, Option.elim]
        rw [hs, Py.lookup_update_self]
      · have ihd := ih (Py.update sd sv.1 (serviceRecord u sv.1 sv.2)) s
        rw [hL] at ihd
        rw [ihd, List.getLast?_cons_cons]
        rcases hx : (x :: xs).getLast? with _ | y
        · exact absurd (List.getLast?_eq_none_iff.1 hx) (by simp)
        · simp only [Option.elim]
    · rw [List.filter_cons_of_neg (by simpa using hs)]
      have ihd := ih (Py.update sd sv.1 (serviceRecord u sv.1 sv.2)) s
      rw [ihd]
      rcases hL : (List.map Prod.snd
          (List.filter (fun sv => decide (sv.1 = s)) rest)).getLast? with _ | last
      · simp only [Option.elim]
        exact Py.lookup_update_ne _ _ _ _ (fun hh => hs hh.symm)
      · simp only [Option.elim]

/-- C7: `list_services` keeps at most one record per template service name;
when the same service name occurs under several regions the record kept is
built from the last occurrence in traversal order (last write wins), and
the returned list is exactly the values of that deduplicated dict. -/
theorem list_services_last_write_wins (u : String → String) (t : Template) (s : String) :
    List.count s (Py.keys (listServicesDict u t)) ≤ 1 ∧
    Py.lookup (listServicesDict u t) s =
      ((occurrences t s).getLast?).map (serviceRecord u s) ∧
    list_services u t = Py.values (listServicesDict u t) := by
  refine ⟨?_, ?_, rfl⟩
  · have hnd : (Py.keys (listServicesDict u t)).Nodup := by
      rw [listServicesDict, listServicesDictGo_flat]
      exact servicesRegionGo_nodup u (flatPairs t) [] (by simp [Py.keys])
    exact List.nodup_iff_count_le_one.1 hnd s
  · rw [listServicesDict, listServicesDictGo_flat, servicesRegionGo_lookup]
    rcases hL : (((flatPairs t).filter (fun sv => sv.1 = s)).map Prod.snd).getLast?
        with _ | last
    · simp only [occurrences, hL, Option.elim, Option.map_none', Py.lookup]
    · simp only [occurrences, hL, Option.elim, Option.map_some']

theorem serviceRecordGo_untouched (sref : List (String × String)) :
    ∀ d k, k ∉ Py.keys sref → Py.lookup (serviceRecordGo d sref) k = Py.lookup d k := by
  induction sref with
  | nil =>
    intro d k _
    rfl
  | cons kv rest ih =>
    intro d k hk
    obtain ⟨h1, h2⟩ := not_mem_keys_cons kv rest k hk
    simp only [serviceRecordGo]
    by_cases hp : kv.1 ∈ service_properties
    · rw [if_pos hp, ih _ k h2]
      exact Py.lookup_update_ne _ _ _ _ h1
    · rw [if_neg hp]
      exact ih _ k h2

theorem interfaceLoop_ids (u : String → String) (region service : String)
    (sref : List (String × String)) (intfs : List (String × String)) :
    ∀ d res, interfaceLoop u region service sref d intfs = .ok res →
    ∀ e, e ∈ res → ∃ name intf, Py.lookup sref "name" = some name ∧
      Py.lookup e "id" = some (PyVal.str (u (region ++ service ++ name ++ intf))) ∧
      Py.lookup e "legacy_endpoint_id" =
        some (PyVal.str (u (region ++ service ++ name ++ intf))) := by
  induction intfs with
  | nil =>
    intro d res h e he
    cases h
    cases he
  | cons kv rest ih =>
    intro d res h e he
    rcases hname : Py.lookup sref "name" with _ | name
    · simp only [interfaceLoop, hname] at h
      cases h
    · rcases hx : extract_interface_from_string kv.1 with _ | intf
      · simp only [interfaceLoop, hname, hx] at h
        cases h
      · simp only [interfaceLoop, hname, hx] at h
        rcases hrec : interfaceLoop u region service sref
            (Py.update (Py.update (Py.update (Py.update d "id"
              (.str (u (region ++ service ++ name ++ intf)))) "legacy_endpoint_id"
              (.str (u (region ++ service ++ name ++ intf)))) "interface" (.str intf)) "url"
              (.str kv.2)) rest with e' | tail
        · rw [hrec] at h
          cases h
        · rw [hrec] at h
          cases h
          rcases List.mem_cons.1 he with he' | he'
          · subst he'
            refine ⟨name, intf, rfl, ?_, ?_⟩
            · rw [Py.lookup_update_ne _ _ _ _ (by decide),
                Py.lookup_update_ne _ _ _ _ (by decide),
                Py.lookup_update_ne _ _ _ _ (by decide),
                Py.lookup_update_self]
            · rw [Py.lookup_update_ne _ _ _ _ (by decide),
                Py.lookup_update_ne _ _ _ _ (by decide),
                Py.lookup_update_self]
          · obtain ⟨n, i, hn, hid2, hleg2⟩ := ih _ tail hrec e he'
            rw [hname] at hn
            exact ⟨n, i, hn, hid2, hleg2⟩

theorem endpointsOfService_ids (u : String → String) (region service : String)
    (sref : List (String × String)) (res : List PyDict)
    (h : endpointsOfService u region service sref = .ok res) :
    ∀ e, e ∈ res → ∃ name intf, Py.lookup sref "name" = some name ∧
      Py.lookup e "id" = some (PyVal.str (u (region ++ service ++ name ++ intf))) ∧
      Py.lookup e "legacy_endpoint_id" =
        some (PyVal.str (u (region ++ service ++ name ++ intf))) :=
  interfaceLoop_ids u region service sref _ _ res h

theorem regionEndpoints_ids (u : String → String) (region : String)
    (svs : List (String × List (String × String))) :
    ∀ res, regionEndpoints u region svs = .ok res →
    ∀ e, e ∈ res → ∃ service sref name intf, (service, sref) ∈ svs ∧
      Py.lookup sref "name" = some name ∧
      Py.lookup e "id" = some (PyVal.str (u (region ++ service ++ name ++ intf))) ∧
      Py.lookup e "legacy_endpoint_id" =
        some (PyVal.str (u (region ++ service ++ name ++ intf))) := by
  induction svs with
  | nil =>
    intro res h e he
    cases h
    cases he
  | cons sv rest ih =>
    intro res h e he
    rcases hb : endpointsOfService u region sv.1 sv.2 with e' | eps
    · simp only [regionEndpoints, hb] at h
      cases h
    · simp only [regionEndpoints, hb] at h
      rcases hr : regionEndpoints u region rest with e' | tail
      · rw [hr] at h
        cases h
      · rw [hr] at h
        cases h
        rcases List.mem_append.1 he with he' | he'
        · obtain ⟨name, intf, h1, h2, h3⟩ := endpointsOfService_ids u region sv.1 sv.2 eps hb e he'
          exact ⟨sv.1, sv.2, name, intf, List.mem_cons_self _ _, h1, h2, h3⟩
        · obtain ⟨service, sref, name, intf, h0, h1, h2, h3⟩ := ih tail hr e he'
          exact ⟨service, sref, name, intf, List.mem_cons_of_mem _ h0, h1, h2, h3⟩

theorem list_endpoints_ids (u : String → String) (t : Template) :
    ∀ res, list_endpoints u t = .ok res →
    ∀ e, e ∈ res → ∃ region rref service sref name intf,
      (region, rref) ∈ t ∧ (service, sref) ∈ rref ∧
      Py.lookup sref "name" = some name ∧
      Py.lookup e "id" = some (PyVal.str (u (region ++ service ++ name ++ intf))) ∧
      Py.lookup e "legacy_endpoint_id" =
        some (PyVal.str (u (region ++ service ++ name ++ intf))) := by
  induction t with
  | nil =>
    intro res h e he
    cases h
    cases he
  | cons r rest ih =>
    intro res h e he
    rcases hb : regionEndpoints u r.1 r.2 with e' | eps
    · simp only [list_endpoints, hb] at h
      cases h
    · simp only [list_endpoints, hb] at h
      rcases hr : list_endpoints u rest with e' | tail
      · rw [hr] at h
        cases h
      · rw [hr] at h
        cases h
        rcases List.mem_append.1 he with he' | he'
        · obtain ⟨service, sref, name, intf, h0, h1, h2, h3⟩ :=
            regionEndpoints_ids u r.1 r.2 eps hb e he'
          exact ⟨r.1, r.2, service, sref, name, intf, List.mem_cons_self _ _, h0, h1, h2, h3⟩
        · obtain ⟨region, rref, service, sref, name, intf, h0, h1, h2, h3, h4⟩ :=
            ih tail hr e he'
          exact ⟨region, rref, service, sref, name, intf, List.mem_cons_of_mem _ h0,
            h1, h2, h3, h4⟩

/-- C6: identifier derivation is a pure function of the template strings:
two runs of `list_services` or `list_endpoints` on the same template are
identical; a service whose template provides no `id` attribute gets the
hash of its service-type string as id; and every emitted endpoint carries
`id` equal to the hash of the separator-free concatenation
region+service+name+interface with `legacy_endpoint_id` equal to `id`.
This corrects the claim: a template attribute literally named `id` is in
the service-properties whitelist and overrides the derived service id, as
the counterexample shows. -/
theorem id_derivation (u : String → String) (t : Template) :
    (list_services u t = list_services u t ∧ list_endpoints u t = list_endpoints u t) ∧
    (∀ s sref, Py.lookup sref "id" = Option.none →
      Py.lookup (serviceRecord u s sref) "id" = some (PyVal.str (u s))) ∧
    (∀ eps, list_endpoints u t = .ok eps → ∀ e, e ∈ eps →
      ∃ region rref service sref name intf,
        (region, rref) ∈ t ∧ (service, sref) ∈ rref ∧
        Py.lookup sref "name" = some name ∧
        Py.lookup e "id" = some (PyVal.str (u (region ++ service ++ name ++ intf))) ∧
        Py.lookup e "legacy_endpoint_id" = Py.lookup e "id") := by
  refine ⟨⟨rfl, rfl⟩, ?_, ?_⟩
  · intro s sref hid
    rw [serviceRecord, serviceRecordGo_untouched sref _ "id"
      ((Py.lookup_eq_none_iff sref "id").1 hid)]
    rfl
  · intro eps h e he
    obtain ⟨region, rref, service, sref, name, intf, h0, h1, h2, h3, h4⟩ :=
      list_endpoints_ids u t eps h e he
    exact ⟨region, rref, service, sref, name, intf, h0, h1, h2, h3, by rw [h3, h4]⟩

/-- C6 counterexample: a template attribute literally named `id` overrides
the derived service id — with hash `fun s => "h" ++ s` the service `s`
would derive id `hs`, but the record carries the template-supplied `X`. -/
theorem id_derivation_counterexample :
    list_services (fun s => "h" ++ s) [("r", [("s", [("id", "X")])])] =
      [[("id", PyVal.str "X"), ("type", PyVal.str "s"), ("enabled", PyVal.bool true),
        ("description", PyVal.str "")]] ∧
    PyVal.str "X" ≠ PyVal.str ("h" ++ "s") :=
  ⟨rfl, by decide⟩

/-- C6 witness: for a service template without an `id` attribute the record
id is the hash of the service-type string. -/
theorem id_derivation_witness :
    Py.lookup (serviceRecord (fun s => "h" ++ s) "s" [("name", "N")]) "id" =
      some (PyVal.str ("h" ++ "s")) :=
  (id_derivation (fun s => "h" ++ s) []).2.1 "s" [("name", "N")] rfl

/-- C10: when project endpoint resolution yields an empty mapping, the v3
filtered catalog depends on the `return_all_endpoints_if_no_filter`
option — with the option set the parent backend's full unfiltered catalog
is returned, without it the catalog is empty. -/
theorem get_v3_catalog_full_fallback (env : V3Env) (user_id project_id : String)
    (rem : List (String × String))
    (h : list_endpoints_for_project env.efEnv project_id = .ok ([], rem)) :
    (env.returnAllIfNoFilter = true →
      get_v3_catalog env user_id project_id =
        .ok (env.fullV3Catalog user_id project_id)) ∧
    (env.returnAllIfNoFilter = false →
      get_v3_catalog env user_id project_id = .ok []) := by
  constructor
  · intro hflag
    simp [get_v3_catalog, h, hflag]
  · intro hflag
    simp [get_v3_catalog, h, hflag]
    rfl

/-- C10 witness: the fallback theorem applied to a concrete environment
with no associations and the option enabled. -/
theorem get_v3_catalog_full_fallback_witness :
    get_v3_catalog v3EnvC10 "u" "p" =
      .ok [{ type := PyVal.str "identity", name := PyVal.str "keystone",
             description := PyVal.str "", endpoints := [] }] :=
  (get_v3_catalog_full_fallback v3EnvC10 "u" "p" [] rfl).1 rfl
